import Mathlib

/-!
Verification of the change-detection and sync-publish logic of the
ai-trading-dashboard repository (files realtime_sync.py, auto_sync.py,
sync_now.py).

The three Python files share one pattern: snapshot the watched directory
as a dict from file path to modification time, diff two consecutive
snapshots, and when the diff is non-empty run a stage / commit / push
sequence through an external version-control command, checking a success
flag after every step.

Embedding conventions:
- A Python dict is an association list with distinct keys; insertion
  follows CPython semantics (an existing key keeps its position, the
  value is replaced), so snapshots built by the scanner always have
  distinct keys.
- Modification times are opaque values compared only for equality;
  they are embedded as natural numbers.
- Every external command invocation is an oracle value of type
  CmdOutcome: either the process ran and produced a return code, stdout
  and stderr, or the invocation raised an exception with a message.
- Console output is irrelevant except for the error reports the publish
  steps print on failure; those are collected (without the emoji
  prefixes) in the errors field of the outcome.
-/

namespace TradingSync

/-- Snapshot: mapping from file path to last-modified timestamp,
as built by FileWatcher.get_file_times (a Python dict). -/
abbrev Snapshot := List (String × Nat)

/-- Keys of a snapshot, in insertion order (dict key view). -/
def keys (s : Snapshot) : List String := s.map Prod.fst

/-- Dict lookup: first binding whose key matches.  On a snapshot with
distinct keys this is the dict access last_modified[p] / the membership
test p in last_modified. -/
def lookupTime : Snapshot → String → Option Nat
  | [], _ => none
  | pt :: rest, p => if pt.1 = p then some pt.2 else lookupTime rest p

/-- Dict assignment d[p] = t with CPython semantics: if the key is
present its value is replaced in place, otherwise the binding is
appended at the end. -/
def dictInsert : Snapshot → String → Nat → Snapshot
  | [], p, t => [(p, t)]
  | pt :: rest, p, t =>
      if pt.1 = p then (pt.1, t) :: rest else pt :: dictInsert rest p t

/-- Helper for strContains: does pat occur as a contiguous run inside
the character list? -/
def subSearch (pat : List Char) : List Char → Bool
  | [] => List.isPrefixOf pat []
  | c :: rest => List.isPrefixOf pat (c :: rest) || subSearch pat rest

/-- Substring test, the Python expression pat in s on strings. -/
def strContains (s pat : String) : Bool :=
  subSearch pat.data s.data

/-- Helper for pyStrip: drop whitespace from both ends of a character
list. -/
def trimList (cs : List Char) : List Char :=
  ((cs.dropWhile Char.isWhitespace).reverse.dropWhile Char.isWhitespace).reverse

/-- The Python str.strip() used on git status output: remove leading and
trailing whitespace. -/
def pyStrip (s : String) : String :=
  String.mk (trimList s.data)

/-- The fixed ignore set of FileWatcher.__init__ (realtime_sync.py
lines 17-20).  The Python set is iterated only through any, so a list
is an adequate embedding. -/
def ignore_patterns : List String :=
  [".git", "__pycache__", "node_modules", ".env",
   "trading_dashboard.db", ".kiro", ".vscode"]

/-- FileWatcher.should_ignore (realtime_sync.py lines 22-25): a path is
ignored when any ignore pattern is a substring of its string form. -/
def should_ignore (file_path : String) : Bool :=
  ignore_patterns.any (fun pattern => strContains file_path pattern)

/-- One filesystem entry as seen by the scanner: its path string,
whether it is a regular file, whether stat succeeds (files that vanish
or become unreadable between enumeration and stat), and its
modification time. -/
structure FSEntry where
  path : String
  isFile : Bool
  statOk : Bool
  mtime : Nat
  deriving Repr, DecidableEq

/-- Loop-body condition of FileWatcher.get_file_times: the entry is a
regular file, is not ignored, and its stat call succeeds (the
OSError / PermissionError branch merely continues). -/
def scannedEntry (e : FSEntry) : Bool :=
  e.isFile && !should_ignore e.path && e.statOk

/-- Loop body of FileWatcher.get_file_times: process one enumerated
entry, assigning into the dict when the entry is scanned. -/
def scanStep (file_times : Snapshot) (e : FSEntry) : Snapshot :=
  if scannedEntry e then dictInsert file_times e.path e.mtime
  else file_times

/-- FileWatcher.get_file_times (realtime_sync.py lines 27-36): fold the
enumeration, assigning file_times[str(file_path)] = mtime for every
scanned entry. -/
def get_file_times (fs : List FSEntry) : Snapshot :=
  fs.foldl scanStep []

/-- Changed files of the watch loop (realtime_sync.py lines 102-105):
every path of the current snapshot that is absent from the previous one
or present with a different timestamp, in current-snapshot order.  The
Python for-loop appends matching paths in iteration order, which is
exactly this filter-then-map. -/
def changedOnly (last_modified current_times : Snapshot) : List String :=
  (current_times.filter (fun pt =>
      decide (lookupTime last_modified pt.1 = none ∨
        lookupTime last_modified pt.1 ≠ some pt.2))).map Prod.fst

/-- Deleted files of the watch loop (realtime_sync.py lines 108-110):
every path of the previous snapshot that is absent from the current one,
suffixed with the deletion marker. -/
def deletedOnly (last_modified current_times : Snapshot) : List String :=
  (last_modified.filter (fun pt =>
      decide (lookupTime current_times pt.1 = none))).map
    (fun pt => pt.1 ++ " (deleted)")

/-- The full change list of one watch iteration: the two loops append
to the same changed_files list, changed entries first, deleted entries
after them. -/
def detectChanges (last_modified current_times : Snapshot) : List String :=
  changedOnly last_modified current_times ++
    deletedOnly last_modified current_times

/-- Outcome of one external command invocation, as the oracle for
subprocess.run: either the process ran and produced a return code with
captured stdout and stderr, or the invocation raised an exception
carrying a message. -/
inductive CmdOutcome where
  | ran (returncode : Int) (stdout stderr : String)
  | exn (msg : String)
  deriving Repr, DecidableEq

/-- The shared command-running helper: auto_sync.run_command,
sync_now.run_command and FileWatcher.run_git_command are three textually
identical copies.  It returns (returncode == 0, stdout, stderr) when the
process ran, and (False, empty string, exception message) when the
invocation raised. -/
def run_command : CmdOutcome → Bool × String × String
  | .ran returncode stdout stderr => (decide (returncode = 0), stdout, stderr)
  | .exn msg => (false, "", msg)

/-- External-world oracle for one sync attempt: the outcome each of the
four git commands would produce if invoked.  The watcher variant never
consults status. -/
structure GitWorld where
  status : CmdOutcome
  add : CmdOutcome
  commit : CmdOutcome
  push : CmdOutcome
  deriving Repr, DecidableEq

/-- The external commands a sync attempt can invoke. -/
inductive Step where
  | status
  | add
  | commit
  | push
  deriving Repr, DecidableEq

/-- Result of one publish attempt: the returned boolean, the external
commands invoked in order, and the error reports printed (the messages
of the print lines with the failure marker, emoji prefix omitted; the
no-changes notices are not errors). -/
structure SyncOutcome where
  ok : Bool
  steps : List Step
  errors : List String
  deriving Repr, DecidableEq

/-- FileWatcher.sync_to_github (realtime_sync.py lines 46-81): add, then
commit, then push, each gated on the previous step's success flag.  A
commit failure whose stderr contains "nothing to commit" is treated as
success.  The changed_files argument only feeds the console listing and
the commit message text, never the control flow. -/
def sync_to_github (g : GitWorld) (changed_files : List String) : SyncOutcome :=
  let r1 := run_command g.add
  if r1.1 = false then
    ⟨false, [Step.add], ["Failed to add: " ++ r1.2.2]⟩
  else
    let r2 := run_command g.commit
    if r2.1 = false then
      if strContains r2.2.2 "nothing to commit" then
        ⟨true, [Step.add, Step.commit], []⟩
      else
        ⟨false, [Step.add, Step.commit], ["Failed to commit: " ++ r2.2.2]⟩
    else
      let r3 := run_command g.push
      if r3.1 = false then
        ⟨false, [Step.add, Step.commit, Step.push],
          ["Failed to push: " ++ r3.2.2]⟩
      else
        ⟨true, [Step.add, Step.commit, Step.push], []⟩

/-- auto_sync.check_git_changes (lines 20-23): run git status
--porcelain and report changes iff the command succeeded and its
stripped stdout is non-empty. -/
def check_git_changes (g : GitWorld) : Bool :=
  let r := run_command g.status
  r.1 && !(pyStrip r.2.1 = "")

/-- auto_sync.auto_commit_and_push (lines 25-56): status pre-check via
check_git_changes (returning True with a no-changes notice when it
reports nothing), then add, commit, push, each gated on the previous
success flag.  Unlike the watcher, a commit failure is always a failure
here, with no nothing-to-commit special case. -/
def auto_commit_and_push (g : GitWorld) : SyncOutcome :=
  if check_git_changes g = false then
    ⟨true, [Step.status], []⟩
  else
    let r1 := run_command g.add
    if r1.1 = false then
      ⟨false, [Step.status, Step.add], ["Failed to add changes: " ++ r1.2.2]⟩
    else
      let r2 := run_command g.commit
      if r2.1 = false then
        ⟨false, [Step.status, Step.add, Step.commit],
          ["Failed to commit: " ++ r2.2.2]⟩
      else
        let r3 := run_command g.push
        if r3.1 = false then
          ⟨false, [Step.status, Step.add, Step.commit, Step.push],
            ["Failed to push: " ++ r3.2.2]⟩
        else
          ⟨true, [Step.status, Step.add, Step.commit, Step.push], []⟩

/-- sync_now.quick_sync (lines 14-49): inline status pre-check (return
early when the status command failed or its stripped stdout is empty),
then add, commit, push, each gated on the previous success flag.  The
Python function returns None; its observable behaviour is the commands
invoked and the error reports printed. -/
def quick_sync (g : GitWorld) : List Step × List String :=
  let r0 := run_command g.status
  if r0.1 = false || pyStrip r0.2.1 = "" then
    ([Step.status], [])
  else
    let r1 := run_command g.add
    if r1.1 = false then
      ([Step.status, Step.add], ["Failed to add: " ++ r1.2.2])
    else
      let r2 := run_command g.commit
      if r2.1 = false then
        ([Step.status, Step.add, Step.commit],
          ["Failed to commit: " ++ r2.2.2])
      else
        let r3 := run_command g.push
        if r3.1 = false then
          ([Step.status, Step.add, Step.commit, Step.push],
            ["Failed to push: " ++ r3.2.2])
        else
          ([Step.status, Step.add, Step.commit, Step.push], [])

/-- One iteration of FileWatcher.watch (realtime_sync.py lines 97-116):
compute the change list from the previous baseline and the fresh
snapshot; when it is non-empty run sync_to_github and set the baseline
to the fresh snapshot regardless of the sync result; when it is empty
leave the baseline untouched and attempt no sync.  Returns the new
baseline and the sync outcome if one was attempted. -/
def watchStep (g : GitWorld) (last_modified current_times : Snapshot) :
    Snapshot × Option SyncOutcome :=
  let changed_files := detectChanges last_modified current_times
  if changed_files.isEmpty then
    (last_modified, none)
  else
    (current_times, some (sync_to_github g changed_files))

/-- Sample world: status reports a pending change, add succeeds, the
commit races against another process and fails with the nothing-to-commit
message on stderr, push would succeed. -/
def gNothingRace : GitWorld :=
  ⟨.ran 0 " M app.py\n" "", .ran 0 "" "",
   .ran 1 "" "nothing to commit, working tree clean", .ran 0 "" ""⟩

/-- Sample world: status reports a pending change but the add invocation
raises an exception. -/
def gAddFail : GitWorld :=
  ⟨.ran 0 " M app.py\n" "", .exn "cannot run git", .ran 0 "" "", .ran 0 "" ""⟩

/-- Sample world: status succeeds and reports a clean tree; the other
commands would succeed. -/
def gNoChg : GitWorld :=
  ⟨.ran 0 "" "", .ran 0 "" "", .ran 0 "" "", .ran 0 "" ""⟩

/-- Sample world: the status invocation itself raises an exception; the
other commands would succeed. -/
def gStatusFail : GitWorld :=
  ⟨.exn "git missing", .ran 0 "" "", .ran 0 "" "", .ran 0 "" ""⟩

/-! Helper lemmas about the dict embedding. -/

/-- Membership in the key view unfolds to membership of some binding. -/
theorem mem_keys (s : Snapshot) (p : String) :
    p ∈ keys s ↔ ∃ t, (p, t) ∈ s := by
  constructor
  · intro h
    obtain ⟨⟨q, t⟩, hpt, hfst⟩ := List.mem_map.mp h
    cases hfst
    exact ⟨t, hpt⟩
  · rintro ⟨t, ht⟩
    exact List.mem_map.mpr ⟨(p, t), ht, rfl⟩

/-- Lookup misses exactly when the key is absent. -/
theorem lookupTime_eq_none (s : Snapshot) (p : String) :
    lookupTime s p = none ↔ p ∉ keys s := by
  induction s with
  | nil => simp [lookupTime, keys]
  | cons pt rest ih =>
    have hk : keys (pt :: rest) = pt.1 :: keys rest := rfl
    rw [hk]
    by_cases h : pt.1 = p
    · subst h
      simp [lookupTime]
    · rw [List.mem_cons]
      simp only [lookupTime, h, if_false]
      rw [ih]
      constructor
      · intro hn hor
        rcases hor with he | hm
        · exact h he.symm
        · exact hn hm
      · intro hn hm
        exact hn (Or.inr hm)

/-- A successful lookup returns one of the bindings. -/
theorem mem_of_lookupTime (s : Snapshot) (p : String) (t : Nat)
    (h : lookupTime s p = some t) : (p, t) ∈ s := by
  induction s with
  | nil => simp [lookupTime] at h
  | cons pt rest ih =>
    obtain ⟨q, u⟩ := pt
    by_cases hq : q = p
    · subst hq
      simp [lookupTime] at h
      subst h
      exact List.mem_cons_self _ _
    · simp [lookupTime, hq] at h
      exact List.mem_cons_of_mem _ (ih h)

/-- On a dict (distinct keys), lookup retrieves every binding. -/
theorem lookupTime_of_mem : ∀ (s : Snapshot) (p : String) (t : Nat),
    (keys s).Nodup → (p, t) ∈ s → lookupTime s p = some t := by
  intro s
  induction s with
  | nil =>
    intro p t _ hmem
    simp at hmem
  | cons pt rest ih =>
    intro p t hnd hmem
    obtain ⟨q, u⟩ := pt
    have hk : keys ((q, u) :: rest) = q :: keys rest := rfl
    rw [hk, List.nodup_cons] at hnd
    rcases List.mem_cons.mp hmem with heq | hrest
    · rw [Prod.mk.injEq] at heq
      obtain ⟨hp, ht⟩ := heq
      subst hp
      subst ht
      simp [lookupTime]
    · have hp : p ∈ keys rest := (mem_keys rest p).mpr ⟨t, hrest⟩
      have hqp : ¬ q = p := fun h => hnd.1 (by rw [h]; exact hp)
      simp only [lookupTime, hqp, if_false]
      exact ih p t hnd.2 hrest

/-- A present key looks up to some value. -/
theorem lookupTime_isSome_of_mem (s : Snapshot) (p : String) (t : Nat)
    (hmem : (p, t) ∈ s) : lookupTime s p ≠ none := by
  intro hnone
  exact (lookupTime_eq_none s p).mp hnone ((mem_keys s p).mpr ⟨t, hmem⟩)

/-- Dict assignment adds exactly the assigned key to the key set. -/
theorem mem_keys_dictInsert : ∀ (s : Snapshot) (p q : String) (t : Nat),
    q ∈ keys (dictInsert s p t) ↔ q ∈ keys s ∨ q = p := by
  intro s
  induction s with
  | nil =>
    intro p q t
    simp [dictInsert, keys]
  | cons pt rest ih =>
    intro p q t
    by_cases h : pt.1 = p
    · subst h
      have hd : dictInsert (pt :: rest) pt.1 t = (pt.1, t) :: rest := by
        simp [dictInsert]
      rw [hd]
      have h1 : keys ((pt.1, t) :: rest) = pt.1 :: keys rest := rfl
      have h2 : keys (pt :: rest) = pt.1 :: keys rest := rfl
      rw [h1, h2, List.mem_cons]
      tauto
    · have hd : dictInsert (pt :: rest) p t = pt :: dictInsert rest p t := by
        simp [dictInsert, h]
      rw [hd]
      have h1 : keys (pt :: dictInsert rest p t) =
          pt.1 :: keys (dictInsert rest p t) := rfl
      have h2 : keys (pt :: rest) = pt.1 :: keys rest := rfl
      rw [h1, h2, List.mem_cons, List.mem_cons, ih p q t]
      tauto

/-- Dict assignment preserves distinctness of keys. -/
theorem nodup_keys_dictInsert : ∀ (s : Snapshot) (p : String) (t : Nat),
    (keys s).Nodup → (keys (dictInsert s p t)).Nodup := by
  intro s
  induction s with
  | nil =>
    intro p t _
    simp [dictInsert, keys]
  | cons pt rest ih =>
    intro p t hnd
    have hk : keys (pt :: rest) = pt.1 :: keys rest := rfl
    rw [hk, List.nodup_cons] at hnd
    by_cases h : pt.1 = p
    · subst h
      have : dictInsert (pt :: rest) pt.1 t = (pt.1, t) :: rest := by
        simp [dictInsert]
      rw [this]
      exact List.nodup_cons.mpr ⟨hnd.1, hnd.2⟩
    · have : dictInsert (pt :: rest) p t = pt :: dictInsert rest p t := by
        simp [dictInsert, h]
      rw [this]
      have hk2 : keys (pt :: dictInsert rest p t) =
          pt.1 :: keys (dictInsert rest p t) := rfl
      rw [hk2, List.nodup_cons]
      refine ⟨fun hmem => ?_, ih p t hnd.2⟩
      rcases (mem_keys_dictInsert rest p pt.1 t).mp hmem with hin | heq
      · exact hnd.1 hin
      · exact h heq

/-- Every key of the scanner fold comes from the accumulator or from a
scanned entry of the enumeration. -/
theorem mem_keys_foldl_scan : ∀ (fs : List FSEntry) (acc : Snapshot) (q : String),
    q ∈ keys (fs.foldl scanStep acc) →
      q ∈ keys acc ∨ ∃ e, e ∈ fs ∧ scannedEntry e = true ∧ e.path = q := by
  intro fs
  induction fs with
  | nil =>
    intro acc q h
    simp at h
    exact Or.inl h
  | cons e fs ih =>
    intro acc q h
    rw [List.foldl_cons] at h
    rcases ih (scanStep acc e) q h with hacc | ⟨e2, he2, hs2, hp2⟩
    · by_cases hs : scannedEntry e = true
      · rw [scanStep, if_pos hs] at hacc
        rcases (mem_keys_dictInsert acc e.path q e.mtime).mp hacc with hin | heq
        · exact Or.inl hin
        · exact Or.inr ⟨e, List.mem_cons_self _ _, hs, heq.symm⟩
      · rw [scanStep, if_neg hs] at hacc
        exact Or.inl hacc
    · exact Or.inr ⟨e2, List.mem_cons_of_mem _ he2, hs2, hp2⟩

/-- The scanner fold preserves distinctness of keys. -/
theorem nodup_keys_foldl_scan : ∀ (fs : List FSEntry) (acc : Snapshot),
    (keys acc).Nodup → (keys (fs.foldl scanStep acc)).Nodup := by
  intro fs
  induction fs with
  | nil =>
    intro acc h
    simpa using h
  | cons e fs ih =>
    intro acc h
    rw [List.foldl_cons]
    refine ih (scanStep acc e) ?_
    rw [scanStep]
    by_cases hs : scannedEntry e = true
    · rw [if_pos hs]
      exact nodup_keys_dictInsert acc e.path e.mtime h
    · rw [if_neg hs]
      exact h

/-- A snapshot produced by the scanner is a genuine dict: distinct
keys. -/
theorem nodup_keys_get_file_times (fs : List FSEntry) :
    (keys (get_file_times fs)).Nodup :=
  nodup_keys_foldl_scan fs [] (by simp [keys])

/-! Characterization of the two halves of the change list. -/

/-- A path is listed as changed exactly when it is a current key whose
lookup differs between the two snapshots (current snapshot a dict). -/
theorem mem_changedOnly (lm ct : Snapshot) (hct : (keys ct).Nodup) (p : String) :
    p ∈ changedOnly lm ct ↔
      p ∈ keys ct ∧ lookupTime lm p ≠ lookupTime ct p := by
  constructor
  · intro h
    obtain ⟨⟨q, t⟩, hflt, hfst⟩ := List.mem_map.mp h
    obtain ⟨hmem, hf⟩ := List.mem_filter.mp hflt
    have hcur : lookupTime ct q = some t := lookupTime_of_mem ct q t hct hmem
    have hcond : lookupTime lm q = none ∨ lookupTime lm q ≠ some t :=
      of_decide_eq_true hf
    subst hfst
    refine ⟨(mem_keys ct q).mpr ⟨t, hmem⟩, ?_⟩
    rw [hcur]
    rcases hcond with hnone | hne
    · rw [hnone]
      exact fun hc => Option.noConfusion hc
    · exact hne
  · rintro ⟨hk, hne⟩
    obtain ⟨t, hmem⟩ := (mem_keys ct p).mp hk
    have hcur : lookupTime ct p = some t := lookupTime_of_mem ct p t hct hmem
    rw [hcur] at hne
    refine List.mem_map.mpr ⟨(p, t), List.mem_filter.mpr ⟨hmem, ?_⟩, rfl⟩
    exact decide_eq_true (Or.inr hne)

/-- A string is listed as deleted exactly when it is a previous key,
absent from the current snapshot, suffixed with the deletion marker. -/
theorem mem_deletedOnly (lm ct : Snapshot) (s : String) :
    s ∈ deletedOnly lm ct ↔
      ∃ p, s = p ++ " (deleted)" ∧ p ∈ keys lm ∧ p ∉ keys ct := by
  constructor
  · intro h
    obtain ⟨⟨q, t⟩, hflt, heq⟩ := List.mem_map.mp h
    obtain ⟨hmem, hg⟩ := List.mem_filter.mp hflt
    have hnone := of_decide_eq_true hg
    exact ⟨q, heq.symm, (mem_keys lm q).mpr ⟨t, hmem⟩,
      (lookupTime_eq_none ct q).mp hnone⟩
  · rintro ⟨p, hs, hin, hout⟩
    obtain ⟨t, hmem⟩ := (mem_keys lm p).mp hin
    refine List.mem_map.mpr ⟨(p, t), List.mem_filter.mpr ⟨hmem, ?_⟩, hs.symm⟩
    exact decide_eq_true ((lookupTime_eq_none ct p).mpr hout)

/-- The changed half is empty exactly when every current binding looks
up unchanged in the previous snapshot. -/
theorem changedOnly_eq_nil (lm ct : Snapshot) :
    changedOnly lm ct = [] ↔
      ∀ pt ∈ ct, lookupTime lm pt.1 = some pt.2 := by
  rw [changedOnly, List.map_eq_nil_iff, List.filter_eq_nil_iff]
  constructor
  · intro h pt hmem
    have := h pt hmem
    by_contra hne
    exact this (decide_eq_true (Or.inr hne))
  · intro h pt hmem hf
    have hcond := of_decide_eq_true hf
    have hsome := h pt hmem
    rcases hcond with hnone | hne
    · rw [hsome] at hnone
      exact Option.noConfusion hnone
    · exact hne hsome

/-- The deleted half is empty exactly when every previous key is still
present in the current snapshot. -/
theorem deletedOnly_eq_nil (lm ct : Snapshot) :
    deletedOnly lm ct = [] ↔
      ∀ pt ∈ lm, lookupTime ct pt.1 ≠ none := by
  rw [deletedOnly, List.map_eq_nil_iff, List.filter_eq_nil_iff]
  constructor
  · intro h pt hmem hnone
    exact h pt hmem (decide_eq_true hnone)
  · intro h pt hmem hf
    exact h pt hmem (of_decide_eq_true hf)

/-- A key is present exactly when its lookup hits. -/
theorem mem_keys_iff_lookup (s : Snapshot) (p : String) :
    p ∈ keys s ↔ lookupTime s p ≠ none := by
  rw [Ne, lookupTime_eq_none, not_not]

/-! Claim theorems. -/

/-- C1: for every pair of snapshots (dicts, so with distinct keys), the
change list of the detection pass is empty iff the two snapshots have
identical key sets and identical timestamp values for every key. -/
theorem detectChanges_eq_nil_iff (lm ct : Snapshot)
    (_hlm : (keys lm).Nodup) (hct : (keys ct).Nodup) :
    detectChanges lm ct = [] ↔
      ((∀ p, p ∈ keys lm ↔ p ∈ keys ct) ∧
        ∀ p, lookupTime lm p = lookupTime ct p) := by
  rw [detectChanges, List.append_eq_nil, changedOnly_eq_nil, deletedOnly_eq_nil]
  constructor
  · rintro ⟨hch, hdel⟩
    have hlook : ∀ p, lookupTime lm p = lookupTime ct p := by
      intro p
      cases hcur : lookupTime ct p with
      | some t =>
        have hmem : (p, t) ∈ ct := mem_of_lookupTime ct p t hcur
        exact hch (p, t) hmem
      | none =>
        cases hlast : lookupTime lm p with
        | none => rfl
        | some u =>
          have hmem : (p, u) ∈ lm := mem_of_lookupTime lm p u hlast
          exact absurd hcur (hdel (p, u) hmem)
    refine ⟨fun p => ?_, hlook⟩
    rw [mem_keys_iff_lookup, mem_keys_iff_lookup, hlook p]
  · rintro ⟨_hkeys, hlook⟩
    constructor
    · intro pt hmem
      rw [hlook pt.1]
      exact lookupTime_of_mem ct pt.1 pt.2 hct hmem
    · intro pt hmem
      rw [← hlook pt.1]
      exact lookupTime_isSome_of_mem lm pt.1 pt.2 hmem

/-- Witness for C1: equal one-entry snapshots produce an empty change
list. -/
theorem detectChanges_eq_nil_iff_witness :
    detectChanges [("a.txt", 1)] [("a.txt", 1)] = [] :=
  (detectChanges_eq_nil_iff [("a.txt", 1)] [("a.txt", 1)]
      (by decide) (by decide)).mpr
    ⟨fun _ => Iff.rfl, fun _ => rfl⟩

/-- C2: the change list is exactly the changed paths (current keys whose
lookup differs from the previous snapshot, covering paths absent from the
previous snapshot) followed by the deleted paths (previous keys absent
from the current snapshot, tagged with the deletion suffix); every
changed entry precedes every deleted entry because the list is the
concatenation of the two halves. -/
theorem detectChanges_characterization (lm ct : Snapshot)
    (hct : (keys ct).Nodup) :
    detectChanges lm ct = changedOnly lm ct ++ deletedOnly lm ct ∧
      (∀ p, p ∈ changedOnly lm ct ↔
        p ∈ keys ct ∧ lookupTime lm p ≠ lookupTime ct p) ∧
      (∀ s, s ∈ deletedOnly lm ct ↔
        ∃ p, s = p ++ " (deleted)" ∧ p ∈ keys lm ∧ p ∉ keys ct) :=
  ⟨rfl, fun p => mem_changedOnly lm ct hct p, fun s => mem_deletedOnly lm ct s⟩

/-- Witness for C2: a fresh path is listed as changed; a vanished path is
listed as deleted with the suffix marker. -/
theorem detectChanges_characterization_witness :
    "b.txt" ∈ changedOnly [("a.txt", 1)] [("a.txt", 1), ("b.txt", 2)] ∧
      "a.txt (deleted)" ∈ deletedOnly [("a.txt", 1)] [] :=
  ⟨((detectChanges_characterization [("a.txt", 1)] [("a.txt", 1), ("b.txt", 2)]
        (by decide)).2.1 "b.txt").mpr (by decide),
    ((detectChanges_characterization [("a.txt", 1)] [] (by decide)).2.2
        "a.txt (deleted)").mpr ⟨"a.txt", by decide, by decide, by decide⟩⟩

/-- C6: a path containing any configured ignore substring never appears
among the keys of a scanned snapshot, whatever its modification time or
file kind. -/
theorem scan_excludes_ignored (fs : List FSEntry) (p pat : String)
    (hpat : pat ∈ ignore_patterns) (hsub : strContains p pat = true) :
    p ∉ keys (get_file_times fs) := by
  intro hmem
  rcases mem_keys_foldl_scan fs [] p hmem with hacc | ⟨e, _, hscan, hpath⟩
  · simp [keys] at hacc
  · have hig : should_ignore e.path = true := by
      rw [hpath, should_ignore]
      exact List.any_eq_true.mpr ⟨pat, hpat, hsub⟩
    rw [scannedEntry] at hscan
    simp [hig] at hscan

/-- Witness for C6: a file under .git is never scanned. -/
theorem scan_excludes_ignored_witness :
    ".git/config" ∉ keys (get_file_times [⟨".git/config", true, true, 7⟩]) :=
  scan_excludes_ignored [⟨".git/config", true, true, 7⟩] ".git/config" ".git"
    (by decide) (by decide)

/-- C9: the scanner is a pure function of the filesystem state, so two
scans with no change in between return the same snapshot, and the diff
of a scanned snapshot against itself is empty (every binding of a dict
looks itself up, and no key is missing from itself). -/
theorem scan_idempotent_diff_empty (fs : List FSEntry) :
    detectChanges (get_file_times fs) (get_file_times fs) = [] := by
  have hnd := nodup_keys_get_file_times fs
  rw [detectChanges, List.append_eq_nil]
  constructor
  · rw [changedOnly_eq_nil]
    intro pt hmem
    exact lookupTime_of_mem _ pt.1 pt.2 hnd hmem
  · rw [deletedOnly_eq_nil]
    intro pt hmem
    exact lookupTime_isSome_of_mem _ pt.1 pt.2 hmem

/-- C3 counterexample: in the auto_sync variant the scenario of the
claim occurs — status reports changes, staging succeeds, the commit step
fails with the nothing-to-commit message — yet auto_commit_and_push
returns False and reports an error, so the claim is false for that cited
publish operation. -/
theorem commit_nothing_counterexample :
    (run_command gNothingRace.add).1 = true ∧
      (run_command gNothingRace.commit).1 = false ∧
      strContains (run_command gNothingRace.commit).2.2 "nothing to commit" = true ∧
      check_git_changes gNothingRace = true ∧
      (auto_commit_and_push gNothingRace).ok = false ∧
      (auto_commit_and_push gNothingRace).errors ≠ [] := by decide

/-- C3 as amended: only the realtime watcher treats a commit failure
whose stderr contains the nothing-to-commit message as success with no
error report; the auto_sync variant treats every commit failure,
including that one, as failure and reports it. -/
theorem commit_nothing_amended (g : GitWorld) (changed_files : List String)
    (hadd : (run_command g.add).1 = true)
    (hfail : (run_command g.commit).1 = false)
    (hmsg : strContains (run_command g.commit).2.2 "nothing to commit" = true) :
    sync_to_github g changed_files = ⟨true, [Step.add, Step.commit], []⟩ ∧
      (check_git_changes g = true →
        (auto_commit_and_push g).ok = false ∧
          (auto_commit_and_push g).errors =
            ["Failed to commit: " ++ (run_command g.commit).2.2]) := by
  constructor
  · rw [sync_to_github]
    simp [hadd, hfail, hmsg]
  · intro hchk
    rw [auto_commit_and_push]
    simp [hchk, hadd, hfail]

/-- Witness for amended C3 at the racing world. -/
theorem commit_nothing_amended_witness :
    sync_to_github gNothingRace ["app.py"] =
      ⟨true, [Step.add, Step.commit], []⟩ :=
  (commit_nothing_amended gNothingRace ["app.py"]
      (by decide) (by decide) (by decide)).1

/-- C4: in one watch iteration, whenever the change list is non-empty a
sync is attempted and the fresh snapshot becomes the next baseline
regardless of the sync result (the returned boolean is discarded); when
the change list is empty no sync is attempted and the baseline is left
unchanged. -/
theorem watch_baseline_advance (g : GitWorld) (lm ct : Snapshot) :
    (detectChanges lm ct ≠ [] →
      (watchStep g lm ct).1 = ct ∧
        (watchStep g lm ct).2 = some (sync_to_github g (detectChanges lm ct))) ∧
    (detectChanges lm ct = [] → watchStep g lm ct = (lm, none)) := by
  constructor
  · intro hne
    have hie : (detectChanges lm ct).isEmpty = false := by
      cases hd : detectChanges lm ct with
      | nil => exact absurd hd hne
      | cons a l => rfl
    rw [watchStep]
    simp [hie]
  · intro he
    rw [watchStep]
    simp [he]

/-- Witness for C4: one new file forces a sync attempt (here a failing
one) and the baseline still advances to the fresh snapshot. -/
theorem watch_baseline_advance_witness :
    (watchStep gAddFail [] [("a.txt", 1)]).1 = [("a.txt", 1)] :=
  ((watch_baseline_advance gAddFail [] [("a.txt", 1)]).1 (by decide)).1

/-- C5: each publish step runs only if the previous one succeeded, in
both publishers.  On a failing step the publisher stops (the invoked-step
list ends at the failing command), reports the error, and returns False.
The model has no undo operation and the step list shows no further
invocations, so prior successful steps are never rolled back. -/
theorem publish_gating (g : GitWorld) (changed_files : List String) :
    ((run_command g.add).1 = false →
      sync_to_github g changed_files =
        ⟨false, [Step.add], ["Failed to add: " ++ (run_command g.add).2.2]⟩) ∧
    ((run_command g.add).1 = true → (run_command g.commit).1 = false →
      strContains (run_command g.commit).2.2 "nothing to commit" = false →
      sync_to_github g changed_files =
        ⟨false, [Step.add, Step.commit],
          ["Failed to commit: " ++ (run_command g.commit).2.2]⟩) ∧
    ((run_command g.add).1 = true → (run_command g.commit).1 = true →
      (run_command g.push).1 = false →
      sync_to_github g changed_files =
        ⟨false, [Step.add, Step.commit, Step.push],
          ["Failed to push: " ++ (run_command g.push).2.2]⟩) ∧
    (check_git_changes g = true → (run_command g.add).1 = false →
      auto_commit_and_push g =
        ⟨false, [Step.status, Step.add],
          ["Failed to add changes: " ++ (run_command g.add).2.2]⟩) ∧
    (check_git_changes g = true → (run_command g.add).1 = true →
      (run_command g.commit).1 = false →
      auto_commit_and_push g =
        ⟨false, [Step.status, Step.add, Step.commit],
          ["Failed to commit: " ++ (run_command g.commit).2.2]⟩) ∧
    (check_git_changes g = true → (run_command g.add).1 = true →
      (run_command g.commit).1 = true → (run_command g.push).1 = false →
      auto_commit_and_push g =
        ⟨false, [Step.status, Step.add, Step.commit, Step.push],
          ["Failed to push: " ++ (run_command g.push).2.2]⟩) := by
  refine ⟨?_, ?_, ?_, ?_, ?_, ?_⟩
  · intro h1
    rw [sync_to_github]
    simp [h1]
  · intro h1 h2 h3
    rw [sync_to_github]
    simp [h1, h2, h3]
  · intro h1 h2 h3
    rw [sync_to_github]
    simp [h1, h2, h3]
  · intro h0 h1
    rw [auto_commit_and_push]
    simp [h0, h1]
  · intro h0 h1 h2
    rw [auto_commit_and_push]
    simp [h0, h1, h2]
  · intro h0 h1 h2 h3
    rw [auto_commit_and_push]
    simp [h0, h1, h2, h3]

/-- Witness for C5: when the add invocation raises, the watcher publish
stops after the add step, reports it and returns False. -/
theorem publish_gating_witness :
    sync_to_github gAddFail ["app.py"] =
      ⟨false, [Step.add], ["Failed to add: " ++ (run_command gAddFail.add).2.2]⟩ :=
  (publish_gating gAddFail ["app.py"]).1 (by decide)

/-- C7: in both pre-checked variants, a pre-check reporting no changes
short-circuits the whole publish: only the status command runs, no
stage, commit or push is invoked, and no error is reported
(auto_commit_and_push additionally returns True). -/
theorem precheck_short_circuit (g : GitWorld) :
    (check_git_changes g = false →
      auto_commit_and_push g = ⟨true, [Step.status], []⟩) ∧
    ((run_command g.status).1 = false ∨ pyStrip (run_command g.status).2.1 = "" →
      quick_sync g = ([Step.status], [])) := by
  constructor
  · intro h
    rw [auto_commit_and_push]
    simp [h]
  · intro h
    rw [quick_sync]
    rcases h with h | h
    · simp [h]
    · simp [h]

/-- Witness for C7: a clean status output short-circuits auto_sync. -/
theorem precheck_short_circuit_witness :
    auto_commit_and_push gNoChg = ⟨true, [Step.status], []⟩ :=
  (precheck_short_circuit gNoChg).1 (by decide)

/-- C8: the shared command-running helper is total over invocation
outcomes: an exception is converted into the failure triple
(False, empty stdout, message), the success flag holds exactly for a
zero return code, and an exception raised by a publish step surfaces as
that step's ordinary failure instead of escaping the publish sequence. -/
theorem run_command_recovers (o : CmdOutcome) (g : GitWorld)
    (changed_files : List String) (m : String) :
    run_command (CmdOutcome.exn m) = (false, "", m) ∧
      ((run_command o).1 = true ↔ ∃ out err, o = CmdOutcome.ran 0 out err) ∧
      (g.add = CmdOutcome.exn m →
        sync_to_github g changed_files =
          ⟨false, [Step.add], ["Failed to add: " ++ m]⟩) := by
  refine ⟨rfl, ?_, ?_⟩
  · cases o with
    | ran rc out err =>
      simp only [run_command, decide_eq_true_eq, CmdOutcome.ran.injEq]
      constructor
      · intro h
        exact ⟨out, err, h, rfl, rfl⟩
      · rintro ⟨o2, e2, hrc, _, _⟩
        exact hrc
    | exn msg =>
      simp [run_command]
  · intro hadd
    rw [sync_to_github, hadd]
    simp [run_command]

/-- Witness for C8: the raising add invocation of gAddFail is recovered
as an ordinary failing step. -/
theorem run_command_recovers_witness :
    sync_to_github gAddFail ["app.py"] =
      ⟨false, [Step.add], ["Failed to add: " ++ "cannot run git"]⟩ :=
  (run_command_recovers gAddFail.add gAddFail ["app.py"] "cannot run git").2.2
    (by decide)

/-- C10: when the status command itself fails, both pre-checked variants
behave exactly as in the no-changes case: the pre-check reports no
changes, nothing past status is invoked, no error is reported, and
auto_commit_and_push still returns True. -/
theorem status_failure_like_no_changes (g : GitWorld)
    (h : (run_command g.status).1 = false) :
    check_git_changes g = false ∧
      auto_commit_and_push g = ⟨true, [Step.status], []⟩ ∧
      quick_sync g = ([Step.status], []) := by
  have hchk : check_git_changes g = false := by
    rw [check_git_changes]
    simp [h]
  refine ⟨hchk, ?_, ?_⟩
  · rw [auto_commit_and_push]
    simp [hchk]
  · rw [quick_sync]
    simp [h]

/-- Witness for C10: an exception in the status invocation is reported
as no changes and auto_commit_and_push returns True. -/
theorem status_failure_like_no_changes_witness :
    check_git_changes gStatusFail = false ∧
      auto_commit_and_push gStatusFail = ⟨true, [Step.status], []⟩ ∧
      quick_sync gStatusFail = ([Step.status], []) :=
  status_failure_like_no_changes gStatusFail (by decide)

end TradingSync

